import Mathlib

/-
Verification of the delphi truncated-regression package against its
specification.  The Python sources are shallowly embedded below:

* `src/delphi/oracle.py`      — membership (truncation) oracles;
* `src/delphi/trainer.py`     — the generic Trainer (early stopping,
  `eval_model`, `model_loop`);
* `src/delphi/stats/truncated_linear_regression.py` — input validation,
  the `beta` normalization, the post-training reparameterization, and the
  variance-projection iteration hook;
* `src/arbitrary.py`          — the experiment driver's rejection-sampling
  accumulation loop.

Tensors of rank 2 are embedded as `List (List ℚ)` (rows of rationals),
rank-1 rows as `List ℚ`.  Machine floats are idealized as rationals (and
as reals where the source takes a square root).  Python exceptions are
embedded as `Except`/error codes.
-/

set_option autoImplicit false

namespace Delphi

/-! ## Oracles (`src/delphi/oracle.py`) -/

/-- `0/1` indicator of a Boolean, as produced by comparing tensors in
`Interval.__call__` before `.prod(-1)`. -/
def indicator (b : Bool) : ℕ := if b then 1 else 0

/-- `.prod(-1)` over a row of `0/1` comparison results. -/
def prodIndicator (l : List Bool) : ℕ := (l.map indicator).prod

/-- `Interval.__call__` (oracle.py lines 35-36):
`((lower < x).prod(-1) * (x < upper).prod(-1))`.  The scalar bounds
broadcast over the coordinates of the row `x`; the result is `1` when the
row is accepted and `0` otherwise. -/
def Interval_call (lower upper : ℚ) (x : List ℚ) : ℕ :=
  prodIndicator (x.map (fun c => decide (lower < c))) *
    prodIndicator (x.map (fun c => decide (c < upper)))

/-- `KIntervalUnion.__call__` (oracle.py lines 47-51): folds
`torch.logical_or` over the constituent `Interval` oracles, starting from
an empty tensor (`none` here); a nonempty accumulator holds the Boolean
acceptance value of the row so far. -/
def KIntervalUnion_call (intervals : List (ℚ × ℚ)) (x : List ℚ) :
    Option Bool :=
  intervals.foldl
    (fun result iv =>
      match result with
      | some b => some (b || decide (Interval_call iv.1 iv.2 x ≠ 0))
      | none => some (decide (Interval_call iv.1 iv.2 x ≠ 0)))
    none

/-- The fixed truncation oracle of the experiment driver
(arbitrary.py line 163): `KIntervalUnion` over
`[-1,-0.5] ∪ [0,0.5] ∪ [2,3]`. -/
def driverIntervals : List (ℚ × ℚ) := [(-1, -1/2), (0, 1/2), (2, 3)]

/-- State of an `UnknownGaussian` oracle (oracle.py lines 173-243).
Density evaluation of the boundary `MultivariateNormal` objects is
abstracted as a function from a row to the value of
`exp(log_prob(row))`; `psi` is the characteristic function `psi_k`
computed at construction; `distDensity` is the working distribution,
`none` until the external caller assigns `dist`. -/
structure UnknownGaussianState where
  empDensity : List ℚ → ℚ
  psi : List ℚ → ℚ
  distDensity : Option (List ℚ → ℚ)

/-- `UnknownGaussian.__call__` (oracle.py lines 205-209): raises
"must learn underlying distribution for membership oracle" when `dist`
is unset, otherwise accepts iff the density ratio times `psi_k` exceeds
`0.5`. -/
def UnknownGaussian_call (o : UnknownGaussianState) (x : List ℚ) :
    Except String Bool :=
  match o.distDensity with
  | none => .error "must learn underlying distribution for membership oracle"
  | some g => .ok (decide (o.empDensity x / g x * o.psi x > 1/2))

/-- The `dist` setter (oracle.py lines 229-231). -/
def UnknownGaussian_setDist (o : UnknownGaussianState)
    (g : List ℚ → ℚ) : UnknownGaussianState :=
  { o with distDensity := some g }

/-! ## Generic Trainer (`src/delphi/trainer.py`) -/

/-- The early-stopping bookkeeping of a `Trainer` (trainer.py lines 80-81):
`best_loss` is initialized to `-INFINITY`, modelled by `none`; a finite
value is `some b`.  `no_improvement_count` starts at `0`. -/
structure TrainerState where
  bestLoss : Option ℚ
  noImprovementCount : ℕ
  deriving Repr, DecidableEq

/-- The initial state of `Trainer.__init__`: `best_loss = -INFINITY`,
`no_improvement_count = 0`. -/
def trainerInit : TrainerState := ⟨none, 0⟩

/-- One epoch's early-stopping bookkeeping (trainer.py lines 174-181),
applied when `args.early_stopping` is set.  `args.tol > -INFINITY` is
always true since `tol` is a finite configuration value, so the guard
reduces to `val_loss > best_loss - tol`; with `best_loss = -INFINITY`
(`none`) that comparison is true for every finite `val_loss`, and
`val_loss < best_loss` is false, so the `none` state is never left. -/
def earlyStopUpdate (tol : ℚ) (s : TrainerState) (valLoss : ℚ) :
    TrainerState :=
  let notImproved : Bool :=
    match s.bestLoss with
    | none => true
    | some b => decide (valLoss > b - tol)
  let count := if notImproved then s.noImprovementCount + 1 else 0
  let best : Option ℚ :=
    match s.bestLoss with
    | none => none
    | some b => if valLoss < b then some valLoss else some b
  ⟨best, count⟩

/-- The epoch loop of one trial of `Trainer.train_model`
(trainer.py lines 153-188), restricted to its early-stopping control
flow: the validation losses of successive epochs are supplied as a list;
after each epoch the early-stopping state is updated (when
`early_stopping` is set) and the loop returns at the first epoch whose
updated `no_improvement_count` reaches `n_iter_no_change`.  Returns the
(1-based) epoch at which training returned early, if any, together with
the final state. -/
def trialEpochsAux (earlyStopping : Bool) (tol : ℚ) (nIterNoChange : ℕ) :
    TrainerState → List ℚ → ℕ → Option ℕ × TrainerState
  | s, [], _ => (none, s)
  | s, valLoss :: rest, epoch =>
    let s1 := if earlyStopping then earlyStopUpdate tol s valLoss else s
    if s1.noImprovementCount ≥ nIterNoChange then (some epoch, s1)
    else trialEpochsAux earlyStopping tol nIterNoChange s1 rest (epoch + 1)

/-- The epoch at which the first trial of `train_model` stops early
(`none` when the loop runs through all supplied epochs). -/
def stopEpoch (earlyStopping : Bool) (tol : ℚ) (nIterNoChange : ℕ)
    (valLosses : List ℚ) : Option ℕ :=
  (trialEpochsAux earlyStopping tol nIterNoChange trainerInit valLosses 1).1

/-- Final early-stopping state after the supplied epochs of the first
trial. -/
def finalState (earlyStopping : Bool) (tol : ℚ) (nIterNoChange : ℕ)
    (valLosses : List ℚ) : TrainerState :=
  (trialEpochsAux earlyStopping tol nIterNoChange trainerInit valLosses 1).2

/-- Running mean of an `AverageMeter` stream (utils.helpers, per the
specification: count, running sum, running mean; a fresh meter reports
`0`).  In `ℚ`, `[].sum / 0 = 0` matches the fresh meter. -/
def meterAvg (vals : List ℚ) : ℚ := vals.sum / vals.length

/-- `Trainer.model_loop` (trainer.py lines 194-253), restricted to its
returned metrics: each batch is evaluated by the model to
`(loss, prec1, prec5)` where the precision entries may be `None`
(regression models return no precision); meters are updated per batch
(a `None` precision is skipped, trainer.py lines 229-230) and the loop
returns the tuple `loss_.avg, prec1_.avg, prec5_.avg` — three values,
embedded as a 3-element list. -/
def model_loop {B : Type} (model : B → ℚ × Option ℚ × Option ℚ)
    (loader : List B) : List ℚ :=
  let outs := loader.map model
  [meterAvg (outs.map (fun o => o.1)),
   meterAvg (outs.filterMap (fun o => o.2.1)),
   meterAvg (outs.filterMap (fun o => o.2.2))]

/-- Python tuple unpacking `a, b = t` of a tuple `t`, embedded on lists:
succeeds only on exactly two components, otherwise raises the
`ValueError` the interpreter produces. -/
def unpackTwo (l : List ℚ) : Except String (ℚ × ℚ) :=
  match l with
  | [a, b] => .ok (a, b)
  | l => if l.length > 2 then .error "too many values to unpack (expected 2)"
         else .error "not enough values to unpack"

/-- `Trainer.eval_model` (trainer.py lines 86-114): runs one validation
`model_loop` pass, unpacking its result as
`test_prec1, test_loss = self.model_loop(VAL, loader, 1)`; when a store
is attached, builds `log_info = (test_prec1, test_loss, time)` (the
`eval` table row; elapsed time is idealized as `0`), appends it and
returns it; without a store the `return log_info` statement reads a
never-assigned local, which Python reports as an unbound local error. -/
def eval_model {B : Type} (model : B → ℚ × Option ℚ × Option ℚ)
    (storeAttached : Bool) (loader : List B) : Except String (ℚ × ℚ × ℚ) :=
  match unpackTwo (model_loop model loader) with
  | .error e => .error e
  | .ok (testPrec1, testLoss) =>
    if storeAttached then .ok (testPrec1, testLoss, 0)
    else .error "local variable referenced before assignment"

/-! ## Truncated linear regression estimator
(`src/delphi/stats/truncated_linear_regression.py`) -/

/-- The kind of runtime error a `fit` call's validation prologue can
raise: a failed `assert` (the invalid-input error), an attribute access
on `None`, or an out-of-range `size(i)` request. -/
inductive PyErr where
  | assertionError
  | attributeError
  | indexError
  deriving Repr, DecidableEq

/-- `t.size(i)` on a tensor whose shape is the list of dimension
extents. -/
def tensorSize (shape : List ℕ) (i : ℕ) : Except PyErr ℕ :=
  match shape.get? i with
  | some n => .ok n
  | none => .error .indexError

/-- The validation prologue of `TruncatedLinearRegression.fit`
(truncated_linear_regression.py lines 111-113), on the shapes of `X`,
`y` and `args.noise_var` (`none` when the noise variance is unknown):

* `assert X.size(0) > X.size(1)`;
* `assert y.dim() == 2 and y.size(1) <= X.size(1)`;
* `assert self.args.noise_var.size(0) == y.size(1)` — executed
  unconditionally, so with `noise_var = None` the attribute access
  `None.size` raises an `AttributeError`. -/
def fit_validate (noiseVarShape : Option (List ℕ))
    (xShape yShape : List ℕ) : Except PyErr Unit :=
  match tensorSize xShape 0, tensorSize xShape 1 with
  | .ok x0, .ok x1 =>
    if x0 > x1 then
      match yShape with
      | [_, y1] =>
        if y1 ≤ x1 then
          match noiseVarShape with
          | none => .error .attributeError
          | some nv =>
            match tensorSize nv 0 with
            | .ok n0 =>
              if n0 = y1 then .ok () else .error .assertionError
            | .error e => .error e
        else .error .assertionError
      | _ => .error .assertionError
    else .error .assertionError
  | .error e, _ => .error e
  | _, .error e => .error e

/-- Line 126: `X = ch.cat([X, ch.ones(X.size(0), 1)], axis=1)` when
`fit_intercept` is set. -/
def augmentX (fitIntercept : Bool) (X : List (List ℚ)) : List (List ℚ) :=
  if fitIntercept then X.map (fun row => row ++ [1]) else X

/-- Squared Euclidean norm of one row (`X.norm(dim=1, p=2)` squared). -/
def rowNormSq (row : List ℚ) : ℚ := (row.map (fun c => c * c)).sum

/-- `X.norm(dim=1, p=2).max()` squared: the largest squared Euclidean
row norm. -/
def maxRowNormSq (X : List (List ℚ)) : ℚ := (X.map rowNormSq).foldr max 0

/-- `LA.norm(X, dim=-1, ord=inf)` of one row: largest absolute entry. -/
def rowInfNorm (row : List ℚ) : ℚ := (row.map (fun c => |c|)).foldr max 0

/-- `LA.norm(X, dim=-1, ord=float('inf')).max()`. -/
def maxRowInfNorm (X : List (List ℚ)) : ℚ := (X.map rowInfNorm).foldr max 0

/-- `X.size(1)` of the (already intercept-augmented) design matrix. -/
def numCols (X : List (List ℚ)) : ℕ := (X.headD []).length

open scoped Classical in
/-- The normalization factor of `fit`
(truncated_linear_regression.py lines 129-132): `beta = 1` unless the
maximum Euclidean row norm of the intercept-augmented `X` exceeds `1`
and the data are not dependent, in which case
`beta = l_inf * sqrt(X.size(1))` with `l_inf` the largest row
infinity-norm.  `X.norm(dim=1, p=2).max()` is `sqrt` of
`maxRowNormSq`. -/
noncomputable def fitBeta (dependent : Bool) (X : List (List ℚ)) : ℝ :=
  if 1 < Real.sqrt (maxRowNormSq X) ∧ dependent = false then
    (maxRowInfNorm X : ℝ) * Real.sqrt (numCols X)
  else 1

/-- The `best_params` value returned by `train_model`: in the
known-variance regime it is the weight tensor itself; in the
unknown-variance regime it is the pair of parameter groups
`(v, lambda)` read as `best_params[0]['params'][0]` and
`best_params[1]['params'][0]`. -/
inductive BestParams where
  | known (w : List ℝ)
  | unknownVar (v : List ℝ) (lam : ℝ)

/-- `history.mean(0)` — the per-coordinate arithmetic mean of the
trajectory of parameter snapshots. -/
noncomputable def historyMean (history : List (List ℝ)) : List ℝ :=
  history.transpose.map (fun col => col.sum / history.length)

/-- The result surface assembled at the end of `fit`. -/
structure FitResult where
  weight : List ℝ
  avgWeight : List ℝ
  variance : Option ℝ
  coef : List ℝ
  intercept : Option ℝ
  avgCoef : List ℝ
  avgIntercept : Option ℝ

/-- The tail of `TruncatedLinearRegression.fit`
(truncated_linear_regression.py lines 139-162), from the trainer's
output to the exposed results:

* `noise_var is None` → `lambda_ = best_params[1]['params'][0]`,
  `v = best_params[0]['params'][0]`, `variance = lambda_.inverse()`,
  `weight = v * variance`; otherwise `weight = best_params`
  (a mismatch between the regime and the trainer output shape is a
  runtime error, hence `none`);
* `avg_weight = history.mean(0)`;
* `weight /= beta`, `avg_weight /= beta`;
* with `fit_intercept`: `coef = weight[:-1]`, `intercept = weight[-1]`,
  likewise for the averaged weight; otherwise `coef = weight[:]`. -/
noncomputable def fit_tail (noiseVar : Option ℚ) (fitIntercept : Bool)
    (beta : ℝ) (bp : BestParams) (history : List (List ℝ)) :
    Option FitResult :=
  match noiseVar, bp with
  | none, .unknownVar v lam =>
    let variance := lam⁻¹
    let weight0 := v.map (fun c => c * variance)
    let weight := weight0.map (fun c => c / beta)
    let avgWeight := (historyMean history).map (fun c => c / beta)
    some (if fitIntercept then
      ⟨weight, avgWeight, some variance, weight.dropLast,
        weight.getLast?, avgWeight.dropLast, avgWeight.getLast?⟩
    else
      ⟨weight, avgWeight, some variance, weight, none, avgWeight, none⟩)
  | some _, .known w =>
    let weight := w.map (fun c => c / beta)
    let avgWeight := (historyMean history).map (fun c => c / beta)
    some (if fitIntercept then
      ⟨weight, avgWeight, none, weight.dropLast, weight.getLast?,
        avgWeight.dropLast, avgWeight.getLast?⟩
    else
      ⟨weight, avgWeight, none, weight, none, avgWeight, none⟩)
  | _, _ => none

/-- The optimizer's raw terminal weight state, as `fit` reads it off
`best_params`: the weight tensor itself in the known-variance regime,
and `v * lambda.inverse()` after the unknown-variance
reparameterization of lines 140-144. -/
noncomputable def rawWeight : BestParams → List ℝ
  | .known w => w
  | .unknownVar v lam => v.map (fun c => c * lam⁻¹)

/-- The `FitResult` produced by `fit_tail` in the unknown-variance
regime at `beta = 1`, raw state `v = [3]`, `lambda = 2`, history
`[[4]]`, no intercept. -/
noncomputable def fitResultUnknownExample : FitResult :=
  ⟨([(3 : ℝ)].map (fun c => c * (2 : ℝ)⁻¹)).map (fun c => c / (1 : ℝ)),
   (historyMean [[(4 : ℝ)]]).map (fun c => c / (1 : ℝ)),
   some (2 : ℝ)⁻¹,
   ([(3 : ℝ)].map (fun c => c * (2 : ℝ)⁻¹)).map (fun c => c / (1 : ℝ)),
   none,
   (historyMean [[(4 : ℝ)]]).map (fun c => c / (1 : ℝ)),
   none⟩

/-- The `FitResult` produced by `fit_tail` in the known-variance regime
on the design matrix `[[3]]` (no intercept), best weight `[6]`, history
`[[2]]`. -/
noncomputable def fitResultKnownExample : FitResult :=
  ⟨[(6 : ℝ)].map (fun c => c / fitBeta false (augmentX false [[3]])),
   (historyMean [[(2 : ℝ)]]).map
     (fun c => c / fitBeta false (augmentX false [[3]])),
   none,
   [(6 : ℝ)].map (fun c => c / fitBeta false (augmentX false [[3]])),
   none,
   (historyMean [[(2 : ℝ)]]).map
     (fun c => c / fitBeta false (augmentX false [[3]])),
   none⟩

/-- `torch.clamp(x, lo, hi)`. -/
def clampTo (x lo hi : ℚ) : ℚ := min (max x lo) hi

/-- `TruncatedLinearRegression.iteration_hook`
(truncated_linear_regression.py lines 289-293), unknown-variance branch:
the trainable inverse-variance parameter `lam` is replaced by
`clamp(lam.inverse(), var_bounds.lower, var_bounds.upper).inverse()`. -/
def iteration_hook_lambda (lower upper lam : ℚ) : ℚ :=
  (clampTo lam⁻¹ lower upper)⁻¹

/-! ## Experiment driver (`src/arbitrary.py`) -/

/-- One pass of the rejection-sampling accumulation loop
(arbitrary.py lines 81-88).  A round's generated batch is the list of
`(covariate row, response row)` pairs `(X[i], y[i])`; `indices` are the
rows whose response the oracle `phi` accepts, and

`x_trunc, y_trunc = ch.cat([x_trunc, X[indices]]), ch.cat([y[indices], y_trunc])`

appends the accepted covariates after the accumulated ones while
prepending the accepted responses before the accumulated ones. -/
def accumulate_round (phi : List ℚ → Bool)
    (acc : List (List ℚ) × List (List ℚ))
    (batch : List (List ℚ × List ℚ)) :
    List (List ℚ) × List (List ℚ) :=
  let kept := batch.filter (fun p => phi p.2)
  (acc.1 ++ kept.map Prod.fst, kept.map Prod.snd ++ acc.2)

/-- The whole accumulation loop over successive generation rounds,
starting from `Tensor([]), Tensor([])`. -/
def accumulate (phi : List ℚ → Bool)
    (rounds : List (List (List ℚ × List ℚ))) :
    List (List ℚ) × List (List ℚ) :=
  rounds.foldl (accumulate_round phi) ([], [])

/-- The driver's truncation predicate: a response row is kept when its
`KIntervalUnion` indicator is nonzero (`.nonzero()` on the oracle
output, arbitrary.py line 86). -/
def driverPhi (y : List ℚ) : Bool :=
  (KIntervalUnion_call driverIntervals y).getD false

/-! ## Helper lemmas -/

theorem prodIndicator_ne_zero (l : List Bool) :
    prodIndicator l ≠ 0 ↔ ∀ b ∈ l, b = true := by
  induction l with
  | nil => simp [prodIndicator]
  | cons b t ih =>
    cases b
    · simp [prodIndicator, indicator]
    · simp [prodIndicator, indicator, ih]

theorem Interval_call_ne_zero (lower upper : ℚ) (x : List ℚ) :
    Interval_call lower upper x ≠ 0 ↔
      ∀ c ∈ x, lower < c ∧ c < upper := by
  rw [Interval_call, Nat.mul_ne_zero_iff, prodIndicator_ne_zero,
    prodIndicator_ne_zero]
  constructor
  · rintro ⟨h1, h2⟩ c hc
    exact ⟨by simpa using h1 _ (List.mem_map_of_mem _ hc),
           by simpa using h2 _ (List.mem_map_of_mem _ hc)⟩
  · intro h
    constructor <;> intro b hb <;> obtain ⟨c, hc, rfl⟩ := List.mem_map.1 hb
    · simpa using (h c hc).1
    · simpa using (h c hc).2

/-- The `KIntervalUnion` fold with a nonempty accumulator computes the
Boolean "or" over the remaining intervals. -/
theorem KIntervalUnion_foldl_some (x : List ℚ) (l : List (ℚ × ℚ))
    (b : Bool) :
    l.foldl
      (fun result iv =>
        match result with
        | some b => some (b || decide (Interval_call iv.1 iv.2 x ≠ 0))
        | none => some (decide (Interval_call iv.1 iv.2 x ≠ 0)))
      (some b) =
      some (b || l.any (fun iv => decide (Interval_call iv.1 iv.2 x ≠ 0))) := by
  induction l generalizing b with
  | nil => simp
  | cons iv t ih =>
    rw [List.foldl_cons]
    exact (ih _).trans (by rw [List.any_cons, Bool.or_assoc])

theorem KIntervalUnion_call_eq_any (ivs : List (ℚ × ℚ)) (x : List ℚ)
    (h : ivs ≠ []) :
    KIntervalUnion_call ivs x =
      some (ivs.any (fun iv => decide (Interval_call iv.1 iv.2 x ≠ 0))) := by
  cases ivs with
  | nil => exact absurd rfl h
  | cons iv t =>
    rw [KIntervalUnion_call, List.foldl_cons]
    exact (KIntervalUnion_foldl_some x t _).trans (by simp)

theorem foldr_max_nonneg (l : List ℚ) : 0 ≤ l.foldr max 0 := by
  induction l with
  | nil => simp
  | cons a t ih => exact le_trans ih (le_max_right a _)

theorem maxRowNormSq_nonneg (X : List (List ℚ)) : 0 ≤ maxRowNormSq X :=
  foldr_max_nonneg _

/-- The strict comparison `X.norm(dim=1, p=2).max() > 1` of the
normalization branch coincides with the same comparison on the squared
norm. -/
theorem one_lt_sqrt_maxRowNormSq_iff (X : List (List ℚ)) :
    1 < Real.sqrt (maxRowNormSq X) ↔ 1 < maxRowNormSq X := by
  rw [Real.lt_sqrt (by norm_num), one_pow]
  exact_mod_cast Iff.rfl

/-! ## Claim theorems -/

/-- C7: the `Interval` oracle accepts a row exactly when every
coordinate lies strictly between the lower and the upper bound, and a
row with any coordinate exactly equal to a bound is rejected. -/
theorem interval_accepts_iff_strictly_inside (lower upper : ℚ)
    (x : List ℚ) :
    (Interval_call lower upper x ≠ 0 ↔
        ∀ c ∈ x, lower < c ∧ c < upper) ∧
    (∀ c ∈ x, c = lower ∨ c = upper → Interval_call lower upper x = 0) := by
  refine ⟨Interval_call_ne_zero lower upper x, fun c hc hbd => ?_⟩
  by_contra hne
  rcases (Interval_call_ne_zero lower upper x).1 hne c hc with ⟨h1, h2⟩
  rcases hbd with rfl | rfl
  · exact lt_irrefl c h1
  · exact lt_irrefl c h2

/-- Witness for C7 at the bounds `(-1, 1)`: the row `[0]` is accepted
(strictly inside) and the boundary row `[1]` is rejected. -/
theorem interval_accepts_iff_strictly_inside_witness :
    (Interval_call (-1) 1 [0] ≠ 0 ↔ ∀ c ∈ [(0 : ℚ)], -1 < c ∧ c < 1) ∧
    Interval_call (-1) 1 [1] = 0 :=
  ⟨(interval_accepts_iff_strictly_inside (-1) 1 [0]).1,
   (interval_accepts_iff_strictly_inside (-1) 1 [1]).2 1 (by simp)
     (Or.inr rfl)⟩

/-- C8: `KIntervalUnion` accepts a row iff some constituent `Interval`
accepts it; the decision is invariant under permuting the interval
list; and on the driver's intervals
`[(-1,-1/2), (0,1/2), (2,3)]` the point `1/4` is accepted, `1` is
rejected and `5/2` is accepted. -/
theorem kinterval_union_any_and_perm_invariant :
    (∀ (ivs : List (ℚ × ℚ)) (x : List ℚ),
        KIntervalUnion_call ivs x = some true ↔
          ∃ iv ∈ ivs, Interval_call iv.1 iv.2 x ≠ 0) ∧
    (∀ (ivs₁ ivs₂ : List (ℚ × ℚ)) (x : List ℚ), ivs₁.Perm ivs₂ →
        KIntervalUnion_call ivs₁ x = KIntervalUnion_call ivs₂ x) ∧
    KIntervalUnion_call driverIntervals [1/4] = some true ∧
    KIntervalUnion_call driverIntervals [1] = some false ∧
    KIntervalUnion_call driverIntervals [5/2] = some true := by
  refine ⟨fun ivs x => ?_, fun ivs₁ ivs₂ x hperm => ?_,
    by norm_num [KIntervalUnion_call, driverIntervals, Interval_call,
      prodIndicator, indicator],
    by norm_num [KIntervalUnion_call, driverIntervals, Interval_call,
      prodIndicator, indicator],
    by norm_num [KIntervalUnion_call, driverIntervals, Interval_call,
      prodIndicator, indicator]⟩
  · cases ivs with
    | nil => simp [KIntervalUnion_call]
    | cons iv t =>
      rw [KIntervalUnion_call_eq_any _ _ (by simp)]
      simp [List.any_eq_true]
  · rcases ivs₁ with _ | ⟨iv, t⟩
    · rw [hperm.nil_eq]
    · have h2 : ivs₂ ≠ [] := by
        intro h
        subst h
        exact absurd hperm.symm.nil_eq (by simp)
      rw [KIntervalUnion_call_eq_any _ _ (by simp),
        KIntervalUnion_call_eq_any _ _ h2]
      congr 1
      cases h1 : (iv :: t).any
          (fun p => decide (Interval_call p.1 p.2 x ≠ 0)) <;>
        cases hh2 : ivs₂.any
          (fun p => decide (Interval_call p.1 p.2 x ≠ 0)) <;> try rfl
      · rw [List.any_eq_true] at hh2
        obtain ⟨a, ha, hpa⟩ := hh2
        have : (iv :: t).any (fun p => decide (Interval_call p.1 p.2 x ≠ 0)) =
            true :=
          List.any_eq_true.2 ⟨a, hperm.mem_iff.2 ha, hpa⟩
        rw [h1] at this
        exact absurd this (by simp)
      · rw [List.any_eq_true] at h1
        obtain ⟨a, ha, hpa⟩ := h1
        have : ivs₂.any (fun p => decide (Interval_call p.1 p.2 x ≠ 0)) =
            true :=
          List.any_eq_true.2 ⟨a, hperm.mem_iff.1 ha, hpa⟩
        rw [hh2] at this
        exact absurd this (by simp)

/-- Witness for C8: permutation invariance applied to a concrete swap of
the first two driver intervals. -/
theorem kinterval_union_any_and_perm_invariant_witness :
    KIntervalUnion_call [((-1 : ℚ), (-1/2 : ℚ)), (0, 1/2)] [1/4] =
      KIntervalUnion_call [((0 : ℚ), (1/2 : ℚ)), (-1, -1/2)] [1/4] :=
  kinterval_union_any_and_perm_invariant.2.1 _ _ [1/4]
    (List.Perm.swap _ _ _)

/-- C9: evaluating the `UnknownGaussian` oracle raises the not-ready
error exactly when its working distribution is unset, and once `dist` is
assigned evaluation proceeds without that error. -/
theorem unknown_gaussian_not_ready_iff :
    (∀ (o : UnknownGaussianState) (x : List ℚ),
        UnknownGaussian_call o x =
            .error "must learn underlying distribution for membership oracle"
          ↔ o.distDensity = none) ∧
    (∀ (o : UnknownGaussianState) (g : List ℚ → ℚ) (x : List ℚ),
        ∃ b, UnknownGaussian_call (UnknownGaussian_setDist o g) x = .ok b) := by
  constructor
  · intro o x
    cases h : o.distDensity <;> simp [UnknownGaussian_call, h]
  · intro o g x
    exact ⟨_, rfl⟩

/-- C4: after the unknown-variance `iteration_hook`, the implied
variance estimate (the inverse of the trainable inverse-variance
parameter) equals the old variance clamped to the configured bounds, and
in particular lies within `[lower, upper]`. -/
theorem variance_projection_in_bounds (lower upper lam : ℚ)
    (h : lower ≤ upper) :
    (iteration_hook_lambda lower upper lam)⁻¹ = clampTo lam⁻¹ lower upper ∧
    lower ≤ (iteration_hook_lambda lower upper lam)⁻¹ ∧
    (iteration_hook_lambda lower upper lam)⁻¹ ≤ upper := by
  have hval : (iteration_hook_lambda lower upper lam)⁻¹ =
      clampTo lam⁻¹ lower upper := inv_inv _
  refine ⟨hval, ?_, ?_⟩
  · rw [hval, clampTo]
    exact le_min (le_max_right _ _) h
  · rw [hval, clampTo]
    exact min_le_right _ _

/-- Witness for C4: bounds `[1/10, 5]` and an inverse-variance step to
`lam = 100` (implied variance `1/100`, below the lower bound) gets
clamped back to the lower bound. -/
theorem variance_projection_in_bounds_witness :
    ((1 / 10 : ℚ) ≤ 5) ∧
    ((iteration_hook_lambda (1/10) 5 100)⁻¹ =
        clampTo (100 : ℚ)⁻¹ (1/10) 5 ∧
      (1/10 : ℚ) ≤ (iteration_hook_lambda (1/10) 5 100)⁻¹ ∧
      (iteration_hook_lambda (1/10) 5 100)⁻¹ ≤ 5) :=
  ⟨by norm_num, variance_projection_in_bounds (1/10) 5 100 (by norm_num)⟩

/-- C1 evidence: with `early_stopping = True`, `tol = 1/1000` and
`n_iter_no_change = 2`, the strictly improving validation-loss sequence
`3, 2, 1` nevertheless stops the trial at epoch 2, and the tracked best
loss is still `-INFINITY` (`none`) — the first validation pass never
became the best.  Since `best_loss` starts at `-INFINITY` and is only
replaced when `val_loss < best_loss`, every epoch registers as
non-improving and training always stops after `n_iter_no_change`
epochs, contradicting the claimed stopping rule. -/
theorem early_stopping_fires_on_improving_losses :
    stopEpoch true (1/1000) 2 [3, 2, 1] = some 2 ∧
    (finalState true (1/1000) 2 [3, 2, 1]).bestLoss = none ∧
    (finalState true (1/1000) 2 [3, 2, 1]).noImprovementCount = 2 := by
  norm_num [stopEpoch, finalState, trialEpochsAux, earlyStopUpdate,
    trainerInit]

/-- C5 evidence: the shape-validation prologue of `fit` accepts a valid
known-variance input and raises the invalid-input (`assert`) error on
the two malformed-shape cases, but in the unknown-variance regime
(`noise_var = None`) it raises an `AttributeError` on every input —
including perfectly valid shapes — because the
`noise_var.size(0) == y.size(1)` assertion is executed
unconditionally. -/
theorem fit_validation_unknown_variance_always_errors :
    fit_validate (some [1]) [3, 2] [3, 1] = .ok () ∧
    fit_validate (some [1]) [2, 3] [2, 1] = .error .assertionError ∧
    fit_validate (some [3]) [4, 2] [4, 3] = .error .assertionError ∧
    fit_validate none [3, 2] [3, 1] = .error .attributeError :=
  ⟨rfl, rfl, rfl, rfl⟩

/-- C6 evidence: running the driver's accumulation loop with its own
truncation oracle on two generation rounds — round one producing the
accepted pair `([17], [1/4])` and round two the accepted pair
`([99], [5/2])` — yields covariates `[[17], [99]]` but responses
`[[5/2], [1/4]]`: row 0 pairs covariate `[17]` with the response
`[5/2]` generated for `[99]`, because accepted covariates are appended
at the tail while accepted responses are prepended at the head. -/
theorem accumulation_mispairs_across_rounds :
    accumulate driverPhi [[([17], [1/4])], [([99], [5/2])]] =
      ([[17], [99]], [[5/2], [1/4]]) := by
  norm_num [accumulate, accumulate_round, driverPhi, KIntervalUnion_call,
    driverIntervals, Interval_call, prodIndicator, indicator]

/-- C10 evidence: `eval_model` raises on every call — `model_loop`
returns the 3-tuple `(loss_.avg, prec1_.avg, prec5_.avg)` but
`eval_model` unpacks it into only `test_prec1, test_loss`, so the
unpacking `ValueError` fires before any metric is returned, with or
without a store. -/
theorem eval_model_always_raises (B : Type)
    (model : B → ℚ × Option ℚ × Option ℚ) (storeAttached : Bool)
    (loader : List B) :
    eval_model model storeAttached loader =
      .error "too many values to unpack (expected 2)" := rfl

/-- C2: whenever the unknown-variance branch of `fit`'s tail produces a
result, the returned weight equals `v_raw * lambda_raw.inverse() / beta`
coordinatewise and the returned variance equals `lambda_raw.inverse()`,
for the optimizer's raw terminal state `(v_raw, lambda_raw)` and the
normalization factor `beta`. -/
theorem unknown_variance_reparameterization (fitIntercept : Bool)
    (beta : ℝ) (v : List ℝ) (lam : ℝ) (history : List (List ℝ))
    (r : FitResult)
    (h : fit_tail none fitIntercept beta (.unknownVar v lam) history =
      some r) :
    r.weight = v.map (fun c => c * lam⁻¹ / beta) ∧
    r.variance = some lam⁻¹ := by
  cases fitIntercept <;> simp only [fit_tail, Option.some.injEq,
    Bool.false_eq_true, if_false, if_true] at h <;> subst h <;>
    simp [List.map_map, Function.comp]

/-- Witness for C2 at `beta = 1`, `v = [3]`, `lambda = 2`, history
`[[4]]`. -/
theorem unknown_variance_reparameterization_witness :
    fitResultUnknownExample.weight =
      [(3 : ℝ)].map (fun c => c * (2 : ℝ)⁻¹ / 1) ∧
    fitResultUnknownExample.variance = some (2 : ℝ)⁻¹ :=
  unknown_variance_reparameterization false 1 [3] 2 [[4]]
    fitResultUnknownExample rfl

/-- C3: in `fit`, writing `Xa` for the intercept-augmented design
matrix, `beta` equals the largest row infinity-norm of `Xa` times the
square root of `Xa`'s column count when the largest Euclidean row norm
of `Xa` exceeds `1` (equivalently, its square does) and the data are
not dependent, and equals `1` otherwise; and both the best weight and
the trajectory-averaged weight exposed by `fit` are the raw values
divided by `beta`. -/
theorem beta_normalization_and_rescale (dep fitIntercept : Bool)
    (noiseVar : Option ℚ) (X : List (List ℚ)) (bp : BestParams)
    (history : List (List ℝ)) (r : FitResult)
    (h : fit_tail noiseVar fitIntercept
        (fitBeta dep (augmentX fitIntercept X)) bp history = some r) :
    (1 < maxRowNormSq (augmentX fitIntercept X) ∧ dep = false →
        fitBeta dep (augmentX fitIntercept X) =
          (maxRowInfNorm (augmentX fitIntercept X) : ℝ) *
            Real.sqrt (numCols (augmentX fitIntercept X))) ∧
    (¬(1 < maxRowNormSq (augmentX fitIntercept X) ∧ dep = false) →
        fitBeta dep (augmentX fitIntercept X) = 1) ∧
    r.weight = (rawWeight bp).map
        (fun c => c / fitBeta dep (augmentX fitIntercept X)) ∧
    r.avgWeight = (historyMean history).map
        (fun c => c / fitBeta dep (augmentX fitIntercept X)) := by
  refine ⟨?_, ?_, ?_⟩
  · rintro ⟨h1, h2⟩
    rw [fitBeta, if_pos ⟨(one_lt_sqrt_maxRowNormSq_iff _).2 h1, h2⟩]
  · intro hn
    rw [fitBeta, if_neg (fun hc =>
      hn ⟨(one_lt_sqrt_maxRowNormSq_iff _).1 hc.1, hc.2⟩)]
  · cases noiseVar with
    | none =>
      cases bp with
      | known w => simp [fit_tail] at h
      | unknownVar v lam =>
        cases fitIntercept <;> simp only [fit_tail, Option.some.injEq,
          Bool.false_eq_true, if_false, if_true] at h <;> subst h <;>
          simp [rawWeight, List.map_map, Function.comp]
    | some nv =>
      cases bp with
      | known w =>
        cases fitIntercept <;> simp only [fit_tail, Option.some.injEq,
          Bool.false_eq_true, if_false, if_true] at h <;> subst h <;>
          simp [rawWeight, List.map_map, Function.comp]
      | unknownVar v lam => simp [fit_tail] at h

/-- Witness for C3: the known-variance regime on the design matrix
`[[3]]` with best weight `[6]` and history `[[2]]`. -/
theorem beta_normalization_and_rescale_witness :
    fitResultKnownExample.weight = (rawWeight (.known [6])).map
        (fun c => c / fitBeta false (augmentX false [[3]])) ∧
    fitResultKnownExample.avgWeight =
      (historyMean [[(2 : ℝ)]]).map
        (fun c => c / fitBeta false (augmentX false [[3]])) :=
  ⟨(beta_normalization_and_rescale false false (some 1) [[3]] (.known [6])
      [[2]] fitResultKnownExample rfl).2.2.1,
   (beta_normalization_and_rescale false false (some 1) [[3]] (.known [6])
      [[2]] fitResultKnownExample rfl).2.2.2⟩

end Delphi
